import Mathlib

/-!
Verification development for the splitify expense-sharing repository.

The data model follows shared/schema.ts. Monetary amounts are modelled in
exact minor units (integer cents), matching the schema's fixed-point
numeric(10, 2) columns. Timestamps are modelled as integers; they are only
carried around, never inspected, by the operations verified here.

The two storage implementations (server/database-storage.ts, class
DatabaseStorage, and server/storage.ts, class MemStorage) are embedded as
pure functions over one abstract store. A drizzle select with a where
clause becomes a List.filter over the corresponding table in row order, a
JS Map keyed by id becomes a list with the map's insertion semantics, and
the serial primary keys become explicit counters in the store.
-/

namespace Splitify

/-- Row of the users table (shared/schema.ts). -/
structure User where
  id : Nat
  username : String
  password : String
  name : String
  email : String
deriving DecidableEq, Repr

/-- Row of the categories table (shared/schema.ts). -/
structure Category where
  id : Nat
  name : String
  icon : String
  color : String
deriving DecidableEq, Repr

/-- Row of the expenses table (shared/schema.ts). `amount` is in minor
units (cents); `group_id` is nullable. -/
structure Expense where
  id : Nat
  title : String
  amount : Int
  date : Int
  category_id : Nat
  user_id : Nat
  notes : Option String
  is_split : Bool
  group_id : Option Nat
deriving DecidableEq, Repr

/-- Row of the groups table (shared/schema.ts). -/
structure Group where
  id : Nat
  name : String
  created_by : Nat
  created_at : Int
  is_active : Bool
deriving DecidableEq, Repr

/-- Row of the group_members table (shared/schema.ts). -/
structure GroupMember where
  id : Nat
  group_id : Nat
  user_id : Nat
  joined_at : Int
deriving DecidableEq, Repr

/-- Row of the expense_splits table (shared/schema.ts). -/
structure ExpenseSplit where
  id : Nat
  expense_id : Nat
  user_id : Nat
  amount : Int
  paid : Bool
deriving DecidableEq, Repr

/-- The repository state: all six tables plus the serial counters used
when inserting expenses and expense splits (MemStorage's currentExpenseId
and currentExpenseSplitId; for DatabaseStorage these model the serial
primary-key sequences). -/
structure Store where
  users : List User
  categories : List Category
  expenses : List Expense
  groups : List Group
  groupMembers : List GroupMember
  expenseSplits : List ExpenseSplit
  nextExpenseId : Nat
  nextSplitId : Nat
deriving DecidableEq, Repr

/-- One entry of the totalByCategory array in a balance report. -/
structure CatTotal where
  categoryId : Nat
  amount : Int
deriving DecidableEq, Repr

/-- The youOwe / youAreOwed aggregate of a balance report. -/
structure OweDetails where
  total : Int
  count : Nat
  groups : Nat
deriving DecidableEq, Repr

/-- Return type of getUserBalances in both storage implementations. -/
structure BalanceReport where
  totalSpent : Int
  youOwe : OweDetails
  youAreOwed : OweDetails
  totalByCategory : List CatTotal
deriving DecidableEq, Repr

/-- JS Map.get on a list of key-value pairs (first match wins; a Map has
unique keys, so the list model returns the entry for the key if any). -/
def mapGet (m : List (Nat × Int)) (k : Nat) : Option Int :=
  (m.find? (fun p => p.1 == k)).map (fun p => p.2)

/-- JS Map.set on a list of key-value pairs: updating an existing key
keeps its insertion position, a new key is appended. -/
def mapSet (m : List (Nat × Int)) (k : Nat) (v : Int) : List (Nat × Int) :=
  match m with
  | [] => [(k, v)]
  | p :: t => if p.1 == k then (k, v) :: t else p :: mapSet t k v

/-- The category-totals Map built by DatabaseStorage.getUserBalances
(database-storage.ts lines 266-276): for each expense, set(categoryId,
(get(categoryId) or 0) + amount). -/
def dbCategoryPairs (es : List Expense) : List (Nat × Int) :=
  es.foldl (fun m e => mapSet m e.category_id ((mapGet m e.category_id).getD 0 + e.amount)) []

/-- The in-place update-or-push loop MemStorage.getUserBalances uses to
build totalByCategory (storage.ts lines 363-375). -/
def memUpsertCat (l : List CatTotal) (k : Nat) (v : Int) : List CatTotal :=
  match l with
  | [] => [⟨k, v⟩]
  | c :: t => if c.categoryId == k then ⟨k, c.amount + v⟩ :: t else c :: memUpsertCat t k v

/-- MemStorage's totalByCategory accumulation over the user's expenses. -/
def memTotalByCategory (es : List Expense) : List CatTotal :=
  es.foldl (fun l e => memUpsertCat l e.category_id e.amount) []

/-- The JS `.map(e => e.group_id).filter(Boolean)` + `new Set(...).size`
combination DatabaseStorage uses for group counts: null group ids and the
falsy id 0 are dropped, then distinct values are counted. -/
def truthyGroupCount (es : List Expense) : Nat :=
  (((es.filterMap (fun e => e.group_id)).filter (fun g => g != 0)).dedup).length

/-- The key MemStorage derives per split for its group Sets
(storage.ts lines 336-339): `this.expenses.get(split.expense_id)?.group_id`.
`none` models undefined (expense missing), `some none` models a null
group id, `some (some g)` a present group id; a JS Set keeps all three
kinds of values distinct. -/
def memGroupKey (s : Store) (sp : ExpenseSplit) : Option (Option Nat) :=
  (s.expenses.find? (fun e => e.id == sp.expense_id)).map (fun e => e.group_id)

/-- getAllExpensesByUser, identical in both storage implementations
(database-storage.ts lines 71-73, storage.ts lines 149-153). -/
def getAllExpensesByUser (u : Nat) (s : Store) : List Expense :=
  s.expenses.filter (fun e => e.user_id == u)

/-- The splitExpenses query of DatabaseStorage.getUserBalances
(database-storage.ts lines 284-298): expenses whose id appears among the
user's split expense ids and that were not created by the user. No paid
filter is applied to the user's splits. -/
def dbSplitExpenses (u : Nat) (s : Store) : List Expense :=
  s.expenses.filter (fun e =>
    ((s.expenseSplits.filter (fun sp => sp.user_id == u)).map
      (fun sp => sp.expense_id)).contains e.id && e.user_id != u)

/-- The userOwesSplits query of DatabaseStorage.getUserBalances
(database-storage.ts lines 301-308). -/
def dbUserOwesSplits (u : Nat) (s : Store) : List ExpenseSplit :=
  s.expenseSplits.filter (fun sp =>
    sp.user_id == u && ((dbSplitExpenses u s).map (fun e => e.id)).contains sp.expense_id)

/-- The othersOweSplits query of DatabaseStorage.getUserBalances
(database-storage.ts lines 325-332). -/
def dbOthersOweSplits (u : Nat) (s : Store) : List ExpenseSplit :=
  s.expenseSplits.filter (fun sp =>
    ((getAllExpensesByUser u s).map (fun e => e.id)).contains sp.expense_id && sp.user_id != u)

/-- The uniqueOwingGroups re-query of DatabaseStorage.getUserBalances
(database-storage.ts lines 335-341): all expenses whose id appears among
the user's own expense ids, regardless of any split. -/
def dbOwingExpenses (u : Nat) (s : Store) : List Expense :=
  s.expenses.filter (fun e =>
    ((getAllExpensesByUser u s).map (fun x => x.id)).contains e.id)

/-- DatabaseStorage.getUserBalances (database-storage.ts lines 254-356).
Note that no query filters on the paid flag, and that uniqueOwingGroups
is computed over all of the user's expenses. -/
def dbGetUserBalances (u : Nat) (s : Store) : BalanceReport :=
  { totalSpent := ((getAllExpensesByUser u s).map (fun e => e.amount)).sum
    youOwe := ⟨((dbUserOwesSplits u s).map (fun sp => sp.amount)).sum,
      (dbUserOwesSplits u s).length, truthyGroupCount (dbSplitExpenses u s)⟩
    youAreOwed := ⟨((dbOthersOweSplits u s).map (fun sp => sp.amount)).sum,
      (dbOthersOweSplits u s).length, truthyGroupCount (dbOwingExpenses u s)⟩
    totalByCategory := (dbCategoryPairs (getAllExpensesByUser u s)).map
      (fun p => CatTotal.mk p.1 p.2) }

/-- The userOwesSplits filter of MemStorage.getUserBalances (storage.ts
lines 330-331): only the split's own user id and paid flag are checked -
there is no check that the owning expense belongs to someone else. -/
def memUserOwesSplits (u : Nat) (s : Store) : List ExpenseSplit :=
  s.expenseSplits.filter (fun sp => sp.user_id == u && !sp.paid)

/-- The othersOweSplits filter of MemStorage.getUserBalances (storage.ts
lines 344-349). -/
def memOthersOweSplits (u : Nat) (s : Store) : List ExpenseSplit :=
  s.expenseSplits.filter (fun sp =>
    ((getAllExpensesByUser u s).map (fun e => e.id)).contains sp.expense_id &&
    sp.user_id != u && !sp.paid)

/-- MemStorage.getUserBalances (storage.ts lines 316-383). The group Sets
have no truthiness filter and key on the possibly-missing owning
expense's possibly-null group id. -/
def memGetUserBalances (u : Nat) (s : Store) : BalanceReport :=
  { totalSpent := ((getAllExpensesByUser u s).map (fun e => e.amount)).sum
    youOwe := ⟨((memUserOwesSplits u s).map (fun sp => sp.amount)).sum,
      (memUserOwesSplits u s).length,
      (((memUserOwesSplits u s).map (memGroupKey s)).dedup).length⟩
    youAreOwed := ⟨((memOthersOweSplits u s).map (fun sp => sp.amount)).sum,
      (memOthersOweSplits u s).length,
      (((memOthersOweSplits u s).map (memGroupKey s)).dedup).length⟩
    totalByCategory := memTotalByCategory (getAllExpensesByUser u s) }

/-- Fields of an expense insert accepted by insertExpenseSchema
(shared/schema.ts): the expenses row without its serial id. -/
structure InsertExpense where
  title : String
  amount : Int
  date : Int
  category_id : Nat
  user_id : Nat
  notes : Option String
  is_split : Bool
  group_id : Option Nat
deriving DecidableEq, Repr

/-- Fields of a split insert accepted by insertExpenseSplitSchema
(shared/schema.ts): paid has a database default, so it is optional. -/
structure InsertSplit where
  expense_id : Nat
  user_id : Nat
  amount : Int
  paid : Option Bool
deriving DecidableEq, Repr

/-- DatabaseStorage.createExpense (database-storage.ts lines 144-147):
insert the row, the serial sequence assigns the id.
MemStorage.createExpense (storage.ts lines 205-210) does the same with
its currentExpenseId counter. -/
def createExpense (ins : InsertExpense) (s : Store) : Expense × Store :=
  let e : Expense := ⟨s.nextExpenseId, ins.title, ins.amount, ins.date, ins.category_id,
    ins.user_id, ins.notes, ins.is_split, ins.group_id⟩
  (e, { s with expenses := s.expenses ++ [e], nextExpenseId := s.nextExpenseId + 1 })

/-- DatabaseStorage.createExpenseSplit (database-storage.ts lines
248-251); MemStorage.createExpenseSplit (storage.ts lines 303-313)
additionally defaults paid to false, which matches the database column
default applied on insert. -/
def createExpenseSplit (ins : InsertSplit) (s : Store) : Store :=
  { s with
    expenseSplits := s.expenseSplits ++
      [⟨s.nextSplitId, ins.expense_id, ins.user_id, ins.amount, ins.paid.getD false⟩]
    nextSplitId := s.nextSplitId + 1 }

/-- DatabaseStorage.deleteExpense (database-storage.ts lines 149-155):
delete all splits whose expense_id matches, then delete the expense. -/
def dbDeleteExpense (eid : Nat) (s : Store) : Store :=
  { s with
    expenseSplits := s.expenseSplits.filter (fun sp => sp.expense_id != eid)
    expenses := s.expenses.filter (fun e => e.id != eid) }

/-- MemStorage.deleteExpense (storage.ts lines 212-221): collect the
splits of the expense via getExpenseSplits, delete each collected split
from the map by its split id, then delete the expense by id. -/
def memDeleteExpense (eid : Nat) (s : Store) : Store :=
  let toDelete := s.expenseSplits.filter (fun sp => sp.expense_id == eid)
  { s with
    expenseSplits := s.expenseSplits.filter (fun sp => !(toDelete.any (fun d => d.id == sp.id)))
    expenses := s.expenses.filter (fun e => e.id != eid) }

/-- One element of the splits array a client sends to POST /api/expenses.
Fields may be absent or of the wrong type, in which case
insertExpenseSplitSchema.parse throws; an absent field is `none`. -/
structure RawSplit where
  user_id : Option Nat
  amount : Option Int
  paid : Option Bool
deriving DecidableEq, Repr

/-- insertExpenseSplitSchema.parse as used by the POST /api/expenses
handler (routes.ts lines 55-60): expense_id is taken from the expense
just created; parsing fails when user_id or amount is missing. -/
def parseSplit (eid : Nat) (r : RawSplit) : Option InsertSplit :=
  match r.user_id, r.amount with
  | some u, some a => some ⟨eid, u, a, r.paid⟩
  | _, _ => none

/-- The split-creation loop of the POST /api/expenses handler (routes.ts
lines 54-62): each raw split is parsed and persisted in order; a parse
failure throws out of the loop, keeping every mutation already made.
Returns false and the state reached so far when a parse fails. -/
def createSplitsLoop (eid : Nat) (raws : List RawSplit) (s : Store) : Bool × Store :=
  match raws with
  | [] => (true, s)
  | r :: t =>
    match parseSplit eid r with
    | none => (false, s)
    | some ins => createSplitsLoop eid t (createExpenseSplit ins s)

/-- The POST /api/expenses handler (routes.ts lines 41-69), after the
expense body itself has parsed: create the expense, then, when is_split
is set and a splits array is present, create each split in turn. A throw
inside the loop is caught and answered with status 400, but the mutations
already performed stay committed. `none` models the 400 response. -/
def postExpense (ins : InsertExpense) (raws : Option (List RawSplit)) (s : Store) :
    Option Expense × Store :=
  let e := (createExpense ins s).1
  let s1 := (createExpense ins s).2
  if ins.is_split then
    match raws with
    | some l =>
      match createSplitsLoop e.id l s1 with
      | (true, s2) => (some e, s2)
      | (false, s2) => (none, s2)
    | none => (some e, s1)
  else (some e, s1)

/-- The DELETE /api/expenses/:id handler (routes.ts lines 71-87):
404 when getExpenseById finds nothing, 403 when the requester is not the
owner, otherwise deleteExpense and 200. The deployed storage is
DatabaseStorage (storage.ts line 387). -/
def deleteExpenseRoute (eid requester : Nat) (s : Store) : Nat × Store :=
  match s.expenses.find? (fun e => e.id == eid) with
  | none => (404, s)
  | some e => if e.user_id != requester then (403, s) else (200, dbDeleteExpense eid s)

/-- One entry of the splits array prepared by the client expense form
(expense-form.tsx schema lines 59-65). -/
structure ClientSplit where
  user_id : Nat
  amount : Int
  paid : Bool
deriving DecidableEq, Repr

/-- The splits array actually submitted by createExpenseMutation in the
client expense form (expense-form.tsx lines 100-114): when the split tab
is selected and a group id is set (truthy), the splits field is
overwritten with the empty array - the code is an acknowledged
placeholder and performs no allocation. -/
def clientSubmittedSplits (splitType : String) (group_id : Option Nat)
    (splits : List ClientSplit) : List ClientSplit :=
  let isSplit := splitType == r"split"
  let groupTruthy := match group_id with
    | some g => g != 0
    | none => false
  if isSplit && groupTruthy then [] else splits

/-- Modelled from the spec: the Split Allocator of spec section 4.1 is
implemented nowhere in the repository (the client site that should call
it is a placeholder), so the algorithm is transcribed from the spec's
words: base = floor(total / n) minor units to every participant, one
extra minor unit to the first (total - base * n) participants in order. -/
def allocate (total : Int) (participants : List Nat) : List (Nat × Int) :=
  let n := participants.length
  let base := total / (n : Int)
  let remainder := total - base * (n : Int)
  participants.enum.map (fun p => (p.2, base + if (p.1 : Int) < remainder then 1 else 0))

/-- Sum of the split amounts recorded for one expense id. -/
def splitSumOf (s : Store) (eid : Nat) : Int :=
  ((s.expenseSplits.filter (fun sp => sp.expense_id == eid)).map (fun sp => sp.amount)).sum

/-- Invariant 1 of spec section 3 as a decidable check: every expense
with is_split has splits summing to its amount within one minor unit, and
every expense without is_split has no splits. -/
def splitInvariantB (s : Store) : Bool :=
  s.expenses.all (fun e =>
    (!e.is_split || decide ((splitSumOf s e.id - e.amount).natAbs ≤ 1)) &&
    (e.is_split || (s.expenseSplits.filter (fun sp => sp.expense_id == e.id)).isEmpty))

/-- The store with a split marked paid = true: expense 1 belongs to user
2, and user 1 has a single split of 500 on it, already paid. -/
def paidSplitStore : Store :=
  ⟨[], [], [⟨1, r"", 1000, 0, 1, 2, none, true, none⟩], [], [],
   [⟨1, 1, 1, 500, true⟩], 2, 2⟩

/-- The store with a self-split: expense 1 belongs to user 1, who also
carries an unpaid split of 500 on it; user 2 carries the other 500. -/
def selfSplitStore : Store :=
  ⟨[], [], [⟨1, r"", 1000, 0, 1, 1, none, true, none⟩], [], [],
   [⟨1, 1, 1, 500, false⟩, ⟨2, 1, 2, 500, false⟩], 2, 3⟩

/-- The store for the group-count claims: user 1 owns expense 1 in group
1 (with an unpaid split by user 2) and expense 2 in group 2 (with no
splits at all). -/
def twoGroupStore : Store :=
  ⟨[], [], [⟨1, r"", 1000, 0, 1, 1, none, true, some 1⟩,
            ⟨2, r"", 2000, 0, 1, 1, none, false, some 2⟩], [], [],
   [⟨1, 1, 2, 500, false⟩], 3, 2⟩

/-- The empty repository state. -/
def emptyStore : Store := ⟨[], [], [], [], [], [], 1, 1⟩

/-- POST body for the atomicity scenario: a split expense of 1000 whose
second caller-supplied split is missing its amount, so its schema parse
throws after the first split has been persisted. -/
def c4Insert : InsertExpense := ⟨r"Dinner", 1000, 0, 1, 1, none, true, none⟩

/-- The two raw splits of the atomicity scenario. -/
def c4Raws : List RawSplit := [⟨some 2, some 500, none⟩, ⟨some 3, none, none⟩]

/-- POST body for the invariant scenario: a split expense of 1000 with a
single caller-supplied split of 100. -/
def c3Insert : InsertExpense := ⟨r"Dinner", 1000, 0, 1, 1, none, true, none⟩

/-- The single raw split of the invariant scenario. -/
def c3Raws : List RawSplit := [⟨some 2, some 100, some false⟩]

/-- POST body of an unsplit expense. -/
def c3wInsert : InsertExpense := ⟨r"Coffee", 400, 0, 1, 1, none, false, none⟩

/-- Remove every split already marked paid from the store. -/
def removePaidSplits (s : Store) : Store :=
  { s with expenseSplits := s.expenseSplits.filter (fun sp => !sp.paid) }

/-- Rewrite one split's paid flag according to its split id. -/
def paidMap (f : Nat → Bool) (sp : ExpenseSplit) : ExpenseSplit :=
  { sp with paid := f sp.id }

/-- Reassign every split's paid flag according to its split id. -/
def setPaidFlags (f : Nat → Bool) (s : Store) : Store :=
  { s with expenseSplits := s.expenseSplits.map (paidMap f) }

/-- Remove the split with the given split id from the store. -/
def removeSplit (i : Nat) (s : Store) : Store :=
  { s with expenseSplits := s.expenseSplits.filter (fun sp => sp.id != i) }

/-- Group count among the owning expenses of exactly the unpaid splits by
others on the user's expenses, as the spec describes youAreOwed.groups:
distinct non-null group ids of only those expenses of the user that carry
at least one unpaid split by another user. -/
def specOwedGroupCount (u : Nat) (s : Store) : Nat :=
  truthyGroupCount (s.expenses.filter (fun e => e.user_id == u &&
    s.expenseSplits.any (fun sp => sp.expense_id == e.id && sp.user_id != u && !sp.paid)))

@[simp] lemma paidMap_user_id (f : Nat → Bool) (sp : ExpenseSplit) :
    (paidMap f sp).user_id = sp.user_id := rfl

@[simp] lemma paidMap_expense_id (f : Nat → Bool) (sp : ExpenseSplit) :
    (paidMap f sp).expense_id = sp.expense_id := rfl

@[simp] lemma paidMap_amount (f : Nat → Bool) (sp : ExpenseSplit) :
    (paidMap f sp).amount = sp.amount := rfl

@[simp] lemma setPaidFlags_expenses (f : Nat → Bool) (s : Store) :
    (setPaidFlags f s).expenses = s.expenses := rfl

@[simp] lemma setPaidFlags_expenseSplits (f : Nat → Bool) (s : Store) :
    (setPaidFlags f s).expenseSplits = s.expenseSplits.map (paidMap f) := rfl

@[simp] lemma removePaidSplits_expenses (s : Store) :
    (removePaidSplits s).expenses = s.expenses := rfl

@[simp] lemma removePaidSplits_expenseSplits (s : Store) :
    (removePaidSplits s).expenseSplits = s.expenseSplits.filter (fun sp => !sp.paid) := rfl

/-- Filtering a paid-rewritten split list by a predicate that ignores the
paid flag commutes with the rewrite. -/
lemma filter_map_paidMap (f : Nat → Bool) (p : ExpenseSplit → Bool)
    (hp : ∀ sp, p (paidMap f sp) = p sp) (l : List ExpenseSplit) :
    (l.map (paidMap f)).filter p = (l.filter p).map (paidMap f) := by
  rw [List.filter_map]
  exact congrArg (List.map (paidMap f)) (List.filter_congr (fun a _ => hp a))

/-- Mapping a split projection that ignores the paid flag is unaffected
by a paid rewrite. -/
lemma map_proj_map_paidMap {β : Type} (f : Nat → Bool) (g : ExpenseSplit → β)
    (hg : ∀ sp, g (paidMap f sp) = g sp) (l : List ExpenseSplit) :
    (l.map (paidMap f)).map g = l.map g := by
  rw [List.map_map]
  exact List.map_eq_map_iff.mpr (fun a _ => hg a)

lemma getAllExpensesByUser_setPaid (u : Nat) (f : Nat → Bool) (s : Store) :
    getAllExpensesByUser u (setPaidFlags f s) = getAllExpensesByUser u s := rfl

lemma getAllExpensesByUser_removePaid (u : Nat) (s : Store) :
    getAllExpensesByUser u (removePaidSplits s) = getAllExpensesByUser u s := rfl

lemma dbSplitExpenses_setPaid (u : Nat) (f : Nat → Bool) (s : Store) :
    dbSplitExpenses u (setPaidFlags f s) = dbSplitExpenses u s := by
  unfold dbSplitExpenses
  simp only [setPaidFlags_expenses, setPaidFlags_expenseSplits,
    filter_map_paidMap f (fun sp => sp.user_id == u) (fun _ => rfl),
    map_proj_map_paidMap f (fun sp => sp.expense_id) (fun _ => rfl)]

lemma dbUserOwesSplits_setPaid (u : Nat) (f : Nat → Bool) (s : Store) :
    dbUserOwesSplits u (setPaidFlags f s) = (dbUserOwesSplits u s).map (paidMap f) := by
  unfold dbUserOwesSplits
  simp only [setPaidFlags_expenseSplits, dbSplitExpenses_setPaid]
  refine filter_map_paidMap f _ (fun sp => ?_) _
  rfl

lemma dbOthersOweSplits_setPaid (u : Nat) (f : Nat → Bool) (s : Store) :
    dbOthersOweSplits u (setPaidFlags f s) = (dbOthersOweSplits u s).map (paidMap f) := by
  unfold dbOthersOweSplits
  simp only [setPaidFlags_expenseSplits, getAllExpensesByUser_setPaid]
  refine filter_map_paidMap f _ (fun sp => ?_) _
  rfl

lemma dbOwingExpenses_setPaid (u : Nat) (f : Nat → Bool) (s : Store) :
    dbOwingExpenses u (setPaidFlags f s) = dbOwingExpenses u s := rfl

/-- DatabaseStorage.getUserBalances reads neither the paid flag nor any
field a paid rewrite changes, so its report is invariant under arbitrary
reassignment of paid flags. -/
lemma dbGetUserBalances_setPaid (u : Nat) (f : Nat → Bool) (s : Store) :
    dbGetUserBalances u (setPaidFlags f s) = dbGetUserBalances u s := by
  unfold dbGetUserBalances
  rw [getAllExpensesByUser_setPaid, dbSplitExpenses_setPaid, dbUserOwesSplits_setPaid,
    dbOthersOweSplits_setPaid, dbOwingExpenses_setPaid,
    map_proj_map_paidMap f (fun sp => sp.amount) (fun _ => rfl),
    map_proj_map_paidMap f (fun sp => sp.amount) (fun _ => rfl),
    List.length_map, List.length_map]

/-- MemStorage.getUserBalances already discards paid splits, so removing
them from the store leaves its report unchanged. -/
lemma memGetUserBalances_removePaid (u : Nat) (s : Store) :
    memGetUserBalances u (removePaidSplits s) = memGetUserBalances u s := by
  have howes : memUserOwesSplits u (removePaidSplits s) = memUserOwesSplits u s := by
    unfold memUserOwesSplits
    rw [removePaidSplits_expenseSplits, List.filter_filter]
    exact List.filter_congr (fun a _ => by cases h : a.paid <;> simp [h])
  have hothers : memOthersOweSplits u (removePaidSplits s) = memOthersOweSplits u s := by
    unfold memOthersOweSplits
    rw [removePaidSplits_expenseSplits, List.filter_filter,
      getAllExpensesByUser_removePaid]
    exact List.filter_congr (fun a _ => by cases h : a.paid <;> simp [h])
  have hkey : ∀ l : List ExpenseSplit,
      l.map (memGroupKey (removePaidSplits s)) = l.map (memGroupKey s) :=
    fun l => List.map_eq_map_iff.mpr (fun a _ => rfl)
  unfold memGetUserBalances
  rw [howes, hothers, hkey, hkey, getAllExpensesByUser_removePaid]

/-- View of a totalByCategory entry as a Map entry. -/
def catToPair (c : CatTotal) : Nat × Int := (c.categoryId, c.amount)

/-- One step of DatabaseStorage's Map accumulation equals one step of
MemStorage's find-and-update-or-push accumulation, through catToPair. -/
lemma mapSet_map_catToPair (l : List CatTotal) (k : Nat) (v : Int) :
    mapSet (l.map catToPair) k ((mapGet (l.map catToPair) k).getD 0 + v) =
    (memUpsertCat l k v).map catToPair := by
  induction l with
  | nil => simp [mapGet, mapSet, memUpsertCat, catToPair]
  | cons c t ih =>
    by_cases h : c.categoryId == k
    · simp [mapGet, mapSet, memUpsertCat, catToPair, List.find?, h]
    · simp only [mapGet, mapSet, memUpsertCat, catToPair, List.map_cons, List.find?, h,
        Bool.false_eq_true, if_false, cond_false] at ih ⊢
      exact congrArg (List.cons (c.categoryId, c.amount)) ih

/-- The two category accumulations agree from corresponding starting
accumulators onwards. -/
lemma dbCategoryPairs_go (es : List Expense) (acc : List CatTotal) :
    es.foldl (fun m e => mapSet m e.category_id ((mapGet m e.category_id).getD 0 + e.amount))
      (acc.map catToPair) =
    (es.foldl (fun l e => memUpsertCat l e.category_id e.amount) acc).map catToPair := by
  induction es generalizing acc with
  | nil => rfl
  | cons e t ih =>
    simp only [List.foldl_cons, mapSet_map_catToPair]
    exact ih (memUpsertCat acc e.category_id e.amount)

/-- DatabaseStorage's category Map holds exactly MemStorage's
totalByCategory array, entry for entry and in the same order. -/
lemma dbCategoryPairs_eq (es : List Expense) :
    dbCategoryPairs es = (memTotalByCategory es).map catToPair :=
  dbCategoryPairs_go es []

/-- Updating one category bucket adds the amount to the bucket sum. -/
lemma memUpsertCat_sum (l : List CatTotal) (k : Nat) (v : Int) :
    ((memUpsertCat l k v).map (fun c => c.amount)).sum =
    (l.map (fun c => c.amount)).sum + v := by
  induction l with
  | nil => simp [memUpsertCat]
  | cons c t ih =>
    by_cases h : c.categoryId == k
    · simp only [memUpsertCat, h, if_true, List.map_cons, List.sum_cons]
      omega
    · simp only [memUpsertCat, h, Bool.false_eq_true, if_false, List.map_cons, List.sum_cons, ih]
      omega

/-- Grouping by category preserves the total of the amounts. -/
lemma memTotalByCategory_go_sum (es : List Expense) (acc : List CatTotal) :
    ((es.foldl (fun l e => memUpsertCat l e.category_id e.amount) acc).map
      (fun c => c.amount)).sum =
    (acc.map (fun c => c.amount)).sum + (es.map (fun e => e.amount)).sum := by
  induction es generalizing acc with
  | nil => simp
  | cons e t ih =>
    simp only [List.foldl_cons, List.map_cons, List.sum_cons, ih, memUpsertCat_sum]
    omega

/-- The amounts of MemStorage's totalByCategory sum to the user's total
spend. -/
lemma memTotalByCategory_sum (es : List Expense) :
    ((memTotalByCategory es).map (fun c => c.amount)).sum = (es.map (fun e => e.amount)).sum := by
  have h := memTotalByCategory_go_sum es []
  simpa [memTotalByCategory] using h

/-- The two implementations produce the same totalByCategory array. -/
lemma totalByCategory_eq (u : Nat) (s : Store) :
    (memGetUserBalances u s).totalByCategory = (dbGetUserBalances u s).totalByCategory := by
  simp only [memGetUserBalances, dbGetUserBalances, dbCategoryPairs_eq, List.map_map]
  exact ((List.map_id (memTotalByCategory (getAllExpensesByUser u s))).symm).trans
    (List.map_eq_map_iff.mpr (fun c _ => rfl))

/-- A parsed split of the POST handler carries the id of the expense
just created and the caller-supplied amount. -/
lemma parseSplit_fields (eid : Nat) (r : RawSplit) (ins : InsertSplit)
    (h : parseSplit eid r = some ins) :
    ins.expense_id = eid ∧ ins.amount = r.amount.getD 0 := by
  rcases r with ⟨u, a, p⟩
  cases u <;> cases a <;> simp [parseSplit] at h
  simp [← h]

/-- Persisting one split adds its amount to the recorded split sum of its
expense. -/
lemma splitSumOf_createExpenseSplit (ins : InsertSplit) (s : Store) (eid : Nat)
    (h : ins.expense_id = eid) :
    splitSumOf (createExpenseSplit ins s) eid = splitSumOf s eid + ins.amount := by
  unfold splitSumOf createExpenseSplit
  simp [List.filter_append, h]

/-- Persisting splits that belong to a different expense leaves the
recorded split sum of an expense unchanged. -/
lemma createSplitsLoop_splitSum (eid : Nat) (l : List RawSplit) (s : Store)
    (h : (createSplitsLoop eid l s).1 = true) :
    splitSumOf (createSplitsLoop eid l s).2 eid =
      splitSumOf s eid + (l.map (fun r => r.amount.getD 0)).sum := by
  induction l generalizing s with
  | nil => simp [createSplitsLoop]
  | cons r t ih =>
    cases hr : parseSplit eid r with
    | none =>
      rw [createSplitsLoop, hr] at h
      simp at h
    | some ins =>
      rw [createSplitsLoop, hr] at h ⊢
      obtain ⟨hid, hamt⟩ := parseSplit_fields eid r ins hr
      rw [ih (createExpenseSplit ins s) h, splitSumOf_createExpenseSplit ins s eid hid]
      simp only [List.map_cons, List.sum_cons, hamt]
      omega

/-- In a list whose keys are pairwise distinct, equal keys force equal
elements. -/
lemma key_inj_of_nodup_map {α : Type} (f : α → Nat) {l : List α} (h : (l.map f).Nodup) :
    ∀ x ∈ l, ∀ y ∈ l, f x = f y → x = y := by
  induction l with
  | nil => simp
  | cons a t ih =>
    simp only [List.map_cons, List.nodup_cons] at h
    obtain ⟨hna, hnd⟩ := h
    intro x hx y hy hxy
    rcases List.mem_cons.mp hx with rfl | hx'
    · rcases List.mem_cons.mp hy with rfl | hy'
      · rfl
      · have : f x ∈ t.map f := by
          rw [hxy]
          exact List.mem_map_of_mem f hy'
        exact absurd this hna
    · rcases List.mem_cons.mp hy with rfl | hy'
      · have : f y ∈ t.map f := by
          rw [← hxy]
          exact List.mem_map_of_mem f hx'
        exact absurd this hna
      · exact ih hnd x hx' y hy' hxy

/-- With unique expense ids, DatabaseStorage's uniqueOwingGroups re-query
(select expenses whose id is among the user's expense ids) returns
exactly the user's expenses. -/
lemma dbOwingExpenses_eq_userExpenses (u : Nat) (s : Store)
    (h : (s.expenses.map (fun e => e.id)).Nodup) :
    dbOwingExpenses u s = getAllExpensesByUser u s := by
  unfold dbOwingExpenses getAllExpensesByUser
  refine List.filter_congr (fun e he => ?_)
  refine Bool.coe_iff_coe.mp ?_
  simp only [List.contains_eq_any_beq, List.any_eq_true, List.mem_map, List.mem_filter,
    getAllExpensesByUser, beq_iff_eq]
  constructor
  · rintro ⟨i, ⟨x, ⟨hxmem, hxu⟩, rfl⟩, hie⟩
    have hxe : x = e := key_inj_of_nodup_map (fun e => e.id) h x hxmem e he hie.symm
    rw [← hxe]
    exact hxu
  · intro hu
    exact ⟨e.id, ⟨e, ⟨he, hu⟩, rfl⟩, rfl⟩

/-- DatabaseStorage's splitExpenses query, re-expressed: the expenses not
owned by the user on which the user has some split, paid or not. -/
lemma dbSplitExpenses_characterization (u : Nat) (s : Store) :
    dbSplitExpenses u s = s.expenses.filter (fun e => e.user_id != u &&
      s.expenseSplits.any (fun sp => sp.user_id == u && sp.expense_id == e.id)) := by
  unfold dbSplitExpenses
  refine List.filter_congr (fun e he => ?_)
  refine Bool.coe_iff_coe.mp ?_
  simp only [Bool.and_eq_true, List.contains_eq_any_beq, List.any_eq_true, List.mem_map,
    List.mem_filter, beq_iff_eq, bne_iff_ne]
  constructor
  · rintro ⟨⟨i, ⟨sp, ⟨hmem, hspu⟩, rfl⟩, hie⟩, hne⟩
    exact ⟨hne, sp, hmem, hspu, hie.symm⟩
  · rintro ⟨hne, sp, hmem, hspu, hid⟩
    exact ⟨⟨sp.expense_id, ⟨sp, ⟨hmem, hspu⟩, rfl⟩, hid.symm⟩, hne⟩

@[simp] lemma removeSplit_expenses (i : Nat) (s : Store) :
    (removeSplit i s).expenses = s.expenses := rfl

@[simp] lemma removeSplit_expenseSplits (i : Nat) (s : Store) :
    (removeSplit i s).expenseSplits = s.expenseSplits.filter (fun sp => sp.id != i) := rfl

/-- Removing a split by id does not change a filter whose predicate
rejects every split carrying that id. -/
lemma filter_removeSplit_of_not {p : ExpenseSplit → Bool} {l : List ExpenseSplit} (i : Nat)
    (h : ∀ x ∈ l, x.id = i → p x = false) :
    (l.filter (fun x => x.id != i)).filter p = l.filter p := by
  induction l with
  | nil => rfl
  | cons a t ih =>
    have ih2 := ih (fun x hx => h x (List.mem_cons_of_mem a hx))
    by_cases ha : a.id = i
    · have hpa := h a (List.mem_cons_self a t) ha
      simp [List.filter_cons, ha, hpa, ih2]
    · by_cases hpa : p a = true
      · simp [List.filter_cons, ha, hpa, ih2]
      · simp only [Bool.not_eq_true] at hpa
        simp [List.filter_cons, ha, hpa, ih2]

/-- Removing one split by id from a list with pairwise distinct split
ids, when the filter keeps that split, removes exactly that split from
the filter's result, up to permutation. -/
lemma filter_perm_removeSplit {p : ExpenseSplit → Bool} {l : List ExpenseSplit}
    {sp : ExpenseSplit} (hmem : sp ∈ l) (hnd : (l.map (fun x => x.id)).Nodup)
    (hp : p sp = true) :
    (l.filter p).Perm (sp :: (l.filter (fun x => x.id != sp.id)).filter p) := by
  induction l with
  | nil => cases hmem
  | cons a t ih =>
    simp only [List.map_cons, List.nodup_cons] at hnd
    obtain ⟨hna, hnd2⟩ := hnd
    rcases List.mem_cons.mp hmem with rfl | hmem2
    · have ht : t.filter (fun x => x.id != sp.id) = t := by
        refine List.filter_eq_self.mpr (fun x hx => ?_)
        have hne : x.id ≠ sp.id := by
          intro hEq
          exact hna (hEq ▸ List.mem_map_of_mem (fun x => x.id) hx)
        simp [hne]
      simp [List.filter_cons, hp, ht]
    · have hane : a.id ≠ sp.id := by
        intro hEq
        exact hna (hEq ▸ List.mem_map_of_mem (fun x => x.id) hmem2)
      have ihx := ih hmem2 hnd2
      cases hpa : p a with
      | true =>
        simp only [List.filter_cons, hpa, if_true, hane, bne_iff_ne, ne_eq,
          not_false_eq_true, if_true]
        exact (ihx.cons a).trans (List.Perm.swap sp a _)
      | false =>
        simpa [List.filter_cons, hpa, hane] using ihx

@[simp] lemma getAllExpensesByUser_removeSplit (v i : Nat) (s : Store) :
    getAllExpensesByUser v (removeSplit i s) = getAllExpensesByUser v s := rfl

@[simp] lemma dbOwingExpenses_removeSplit (v i : Nat) (s : Store) :
    dbOwingExpenses v (removeSplit i s) = dbOwingExpenses v s := rfl

/-- The id of an expense owned by someone other than v never appears
among v's expense ids (unique expense ids). -/
lemma notMem_userExpenseIds (s : Store) (sp : ExpenseSplit) (e : Expense) (v : Nat)
    (hnde : (s.expenses.map (fun x => x.id)).Nodup) (he : e ∈ s.expenses)
    (hid : e.id = sp.expense_id) (hvne : e.user_id ≠ v) :
    ((getAllExpensesByUser v s).map (fun x => x.id)).contains sp.expense_id = false := by
  cases hc : ((getAllExpensesByUser v s).map (fun x => x.id)).contains sp.expense_id with
  | false => rfl
  | true =>
    exfalso
    rw [List.contains_eq_any_beq, List.any_eq_true] at hc
    obtain ⟨i, hi, hbeq⟩ := hc
    obtain ⟨y, hy, rfl⟩ := List.mem_map.mp hi
    obtain ⟨hyl, hyv⟩ := List.mem_filter.mp hy
    have hyid : y.id = e.id := by
      rw [hid]
      exact (beq_iff_eq.mp hbeq).symm
    have hye : y = e := key_inj_of_nodup_map (fun z => z.id) hnde y hyl e he hyid
    rw [hye] at hyv
    exact hvne (beq_iff_eq.mp hyv)

/-- The id of the self-split's owning expense never appears among the ids
of splitExpenses (which are all owned by others). -/
lemma notMem_dbSplitExpenseIds (s : Store) (sp : ExpenseSplit) (e : Expense)
    (hnde : (s.expenses.map (fun x => x.id)).Nodup) (he : e ∈ s.expenses)
    (hid : e.id = sp.expense_id) (hself : e.user_id = sp.user_id) :
    ((dbSplitExpenses sp.user_id s).map (fun x => x.id)).contains sp.expense_id = false := by
  cases hc : ((dbSplitExpenses sp.user_id s).map (fun x => x.id)).contains sp.expense_id with
  | false => rfl
  | true =>
    exfalso
    rw [List.contains_eq_any_beq, List.any_eq_true] at hc
    obtain ⟨i, hi, hbeq⟩ := hc
    obtain ⟨y, hy, rfl⟩ := List.mem_map.mp hi
    obtain ⟨hyl, hycond⟩ := List.mem_filter.mp hy
    have hyid : y.id = e.id := by
      rw [hid]
      exact (beq_iff_eq.mp hbeq).symm
    have hye : y = e := key_inj_of_nodup_map (fun z => z.id) hnde y hyl e he hyid
    rw [Bool.and_eq_true] at hycond
    have := hycond.2
    rw [hye, hself] at this
    simp at this

/-- Removing a split of user u leaves MemStorage's userOwesSplits of any
other user unchanged. -/
lemma memUserOwesSplits_removeSplit_ne (s : Store) (sp : ExpenseSplit) (v : Nat)
    (hnds : (s.expenseSplits.map (fun x => x.id)).Nodup)
    (hmem : sp ∈ s.expenseSplits) (hv : sp.user_id ≠ v) :
    memUserOwesSplits v (removeSplit sp.id s) = memUserOwesSplits v s := by
  unfold memUserOwesSplits
  rw [removeSplit_expenseSplits]
  refine filter_removeSplit_of_not sp.id (fun x hx hxid => ?_)
  have hxsp : x = sp := key_inj_of_nodup_map (fun z => z.id) hnds x hx sp hmem hxid
  rw [hxsp]
  simp [hv]

/-- Removing a split on an expense not owned by v leaves MemStorage's
othersOweSplits of v unchanged. -/
lemma memOthersOweSplits_removeSplit_notOwner (s : Store) (sp : ExpenseSplit) (e : Expense)
    (v : Nat)
    (hnds : (s.expenseSplits.map (fun x => x.id)).Nodup)
    (hnde : (s.expenses.map (fun x => x.id)).Nodup)
    (hmem : sp ∈ s.expenseSplits) (he : e ∈ s.expenses)
    (hid : e.id = sp.expense_id) (hvne : e.user_id ≠ v) :
    memOthersOweSplits v (removeSplit sp.id s) = memOthersOweSplits v s := by
  unfold memOthersOweSplits
  simp only [getAllExpensesByUser_removeSplit, removeSplit_expenseSplits]
  refine filter_removeSplit_of_not sp.id (fun x hx hxid => ?_)
  have hxsp : x = sp := key_inj_of_nodup_map (fun z => z.id) hnds x hx sp hmem hxid
  rw [hxsp, notMem_userExpenseIds s sp e v hnde he hid hvne]
  simp

/-- Removing the self-split leaves MemStorage's othersOweSplits of the
self user unchanged (the split's user is not a different user). -/
lemma memOthersOweSplits_removeSelfSplit (s : Store) (sp : ExpenseSplit)
    (hnds : (s.expenseSplits.map (fun x => x.id)).Nodup)
    (hmem : sp ∈ s.expenseSplits) :
    memOthersOweSplits sp.user_id (removeSplit sp.id s) =
      memOthersOweSplits sp.user_id s := by
  unfold memOthersOweSplits
  simp only [getAllExpensesByUser_removeSplit, removeSplit_expenseSplits]
  refine filter_removeSplit_of_not sp.id (fun x hx hxid => ?_)
  have hxsp : x = sp := key_inj_of_nodup_map (fun z => z.id) hnds x hx sp hmem hxid
  rw [hxsp]
  simp

/-- Removing a split of user u leaves DatabaseStorage's splitExpenses of
any other user unchanged. -/
lemma dbSplitExpenses_removeSplit_ne (s : Store) (sp : ExpenseSplit) (v : Nat)
    (hnds : (s.expenseSplits.map (fun x => x.id)).Nodup)
    (hmem : sp ∈ s.expenseSplits) (hv : sp.user_id ≠ v) :
    dbSplitExpenses v (removeSplit sp.id s) = dbSplitExpenses v s := by
  have hinner : (s.expenseSplits.filter (fun x => x.id != sp.id)).filter
      (fun x => x.user_id == v) = s.expenseSplits.filter (fun x => x.user_id == v) := by
    refine filter_removeSplit_of_not sp.id (fun x hx hxid => ?_)
    have hxsp : x = sp := key_inj_of_nodup_map (fun z => z.id) hnds x hx sp hmem hxid
    rw [hxsp]
    simp [hv]
  unfold dbSplitExpenses
  simp only [removeSplit_expenses, removeSplit_expenseSplits, hinner]

/-- Removing a split of user u leaves DatabaseStorage's userOwesSplits of
any other user unchanged. -/
lemma dbUserOwesSplits_removeSplit_ne (s : Store) (sp : ExpenseSplit) (v : Nat)
    (hnds : (s.expenseSplits.map (fun x => x.id)).Nodup)
    (hmem : sp ∈ s.expenseSplits) (hv : sp.user_id ≠ v) :
    dbUserOwesSplits v (removeSplit sp.id s) = dbUserOwesSplits v s := by
  unfold dbUserOwesSplits
  simp only [removeSplit_expenseSplits, dbSplitExpenses_removeSplit_ne s sp v hnds hmem hv]
  refine filter_removeSplit_of_not sp.id (fun x hx hxid => ?_)
  have hxsp : x = sp := key_inj_of_nodup_map (fun z => z.id) hnds x hx sp hmem hxid
  rw [hxsp]
  simp [hv]

/-- Removing a split on an expense not owned by v leaves
DatabaseStorage's othersOweSplits of v unchanged. -/
lemma dbOthersOweSplits_removeSplit_notOwner (s : Store) (sp : ExpenseSplit) (e : Expense)
    (v : Nat)
    (hnds : (s.expenseSplits.map (fun x => x.id)).Nodup)
    (hnde : (s.expenses.map (fun x => x.id)).Nodup)
    (hmem : sp ∈ s.expenseSplits) (he : e ∈ s.expenses)
    (hid : e.id = sp.expense_id) (hvne : e.user_id ≠ v) :
    dbOthersOweSplits v (removeSplit sp.id s) = dbOthersOweSplits v s := by
  unfold dbOthersOweSplits
  simp only [getAllExpensesByUser_removeSplit, removeSplit_expenseSplits]
  refine filter_removeSplit_of_not sp.id (fun x hx hxid => ?_)
  have hxsp : x = sp := key_inj_of_nodup_map (fun z => z.id) hnds x hx sp hmem hxid
  rw [hxsp, notMem_userExpenseIds s sp e v hnde he hid hvne]
  simp

/-- Removing the self-split leaves DatabaseStorage's othersOweSplits of
the self user unchanged. -/
lemma dbOthersOweSplits_removeSelfSplit (s : Store) (sp : ExpenseSplit)
    (hnds : (s.expenseSplits.map (fun x => x.id)).Nodup)
    (hmem : sp ∈ s.expenseSplits) :
    dbOthersOweSplits sp.user_id (removeSplit sp.id s) =
      dbOthersOweSplits sp.user_id s := by
  unfold dbOthersOweSplits
  simp only [getAllExpensesByUser_removeSplit, removeSplit_expenseSplits]
  refine filter_removeSplit_of_not sp.id (fun x hx hxid => ?_)
  have hxsp : x = sp := key_inj_of_nodup_map (fun z => z.id) hnds x hx sp hmem hxid
  rw [hxsp]
  simp

/-- Membership of an expense id in the mapped split-expense ids is
unchanged by the removal when every removed split points elsewhere. -/
lemma contains_filter_removeSplit (l : List ExpenseSplit) (p : ExpenseSplit → Bool)
    (i : Nat) (a : Nat)
    (h : ∀ x ∈ l, x.id = i → p x = true → x.expense_id ≠ a) :
    ((((l.filter (fun x => x.id != i)).filter p).map (fun x => x.expense_id)).contains a) =
    (((l.filter p).map (fun x => x.expense_id)).contains a) := by
  refine Bool.coe_iff_coe.mp ?_
  simp only [List.contains_eq_any_beq, List.any_eq_true, List.mem_map, List.mem_filter,
    beq_iff_eq, bne_iff_ne]
  constructor
  · rintro ⟨j, ⟨y, ⟨⟨hyl, hyne⟩, hyp⟩, rfl⟩, hya⟩
    exact ⟨y.expense_id, ⟨y, ⟨hyl, hyp⟩, rfl⟩, hya⟩
  · rintro ⟨j, ⟨y, ⟨hyl, hyp⟩, rfl⟩, hya⟩
    have hyne : y.id ≠ i := by
      intro hEq
      exact h y hyl hEq hyp hya.symm
    exact ⟨y.expense_id, ⟨y, ⟨⟨hyl, hyne⟩, hyp⟩, rfl⟩, hya⟩

/-- Removing the self-split leaves DatabaseStorage's splitExpenses of the
self user unchanged: the only expense the removed split points to is the
user's own, which the owner check excludes anyway. -/
lemma dbSplitExpenses_removeSelfSplit (s : Store) (sp : ExpenseSplit) (e : Expense)
    (hnds : (s.expenseSplits.map (fun x => x.id)).Nodup)
    (hnde : (s.expenses.map (fun x => x.id)).Nodup)
    (hmem : sp ∈ s.expenseSplits) (he : e ∈ s.expenses)
    (hid : e.id = sp.expense_id) (hself : e.user_id = sp.user_id) :
    dbSplitExpenses sp.user_id (removeSplit sp.id s) = dbSplitExpenses sp.user_id s := by
  unfold dbSplitExpenses
  simp only [removeSplit_expenses, removeSplit_expenseSplits]
  refine List.filter_congr (fun x hx => ?_)
  cases hxu : (x.user_id != sp.user_id) with
  | false => simp [hxu]
  | true =>
    have hxne : x.id ≠ sp.expense_id := by
      intro hEq
      have hxe : x = e :=
        key_inj_of_nodup_map (fun z => z.id) hnde x hx e he (hEq.trans hid.symm)
      rw [hxe, hself] at hxu
      simp at hxu
    rw [contains_filter_removeSplit s.expenseSplits (fun z => z.user_id == sp.user_id)
      sp.id x.id (fun y hy hyid _ => ?_)]
    have hysp : y = sp := key_inj_of_nodup_map (fun z => z.id) hnds y hy sp hmem hyid
    rw [hysp]
    exact fun hEq => hxne hEq.symm

/-- Removing the self-split leaves DatabaseStorage's userOwesSplits of
the self user unchanged: the removed split's expense id is never among
the splitExpenses ids. -/
lemma dbUserOwesSplits_removeSelfSplit (s : Store) (sp : ExpenseSplit) (e : Expense)
    (hnds : (s.expenseSplits.map (fun x => x.id)).Nodup)
    (hnde : (s.expenses.map (fun x => x.id)).Nodup)
    (hmem : sp ∈ s.expenseSplits) (he : e ∈ s.expenses)
    (hid : e.id = sp.expense_id) (hself : e.user_id = sp.user_id) :
    dbUserOwesSplits sp.user_id (removeSplit sp.id s) = dbUserOwesSplits sp.user_id s := by
  unfold dbUserOwesSplits
  simp only [removeSplit_expenseSplits,
    dbSplitExpenses_removeSelfSplit s sp e hnds hnde hmem he hid hself]
  refine filter_removeSplit_of_not sp.id (fun x hx hxid => ?_)
  have hxsp : x = sp := key_inj_of_nodup_map (fun z => z.id) hnds x hx sp hmem hxid
  rw [hxsp, notMem_dbSplitExpenseIds s sp e hnde he hid hself]
  simp

/-- Removing the unpaid self-split removes exactly one entry from
MemStorage's userOwesSplits of the self user. -/
lemma memUserOwesSplits_perm_removeSelfSplit (s : Store) (sp : ExpenseSplit)
    (hnds : (s.expenseSplits.map (fun x => x.id)).Nodup)
    (hmem : sp ∈ s.expenseSplits) (hunpaid : sp.paid = false) :
    (memUserOwesSplits sp.user_id s).Perm
      (sp :: memUserOwesSplits sp.user_id (removeSplit sp.id s)) := by
  unfold memUserOwesSplits
  rw [removeSplit_expenseSplits]
  exact filter_perm_removeSplit hmem hnds (by simp [hunpaid])

/-- The group key MemStorage derives only reads the expenses table, which
a split removal does not touch. -/
lemma memGroupKey_removeSplit (i : Nat) (s : Store) (l : List ExpenseSplit) :
    l.map (memGroupKey (removeSplit i s)) = l.map (memGroupKey s) :=
  List.map_eq_map_iff.mpr (fun _ _ => rfl)

/-!
## Claim theorems
-/

/-- Claim C1, counterexample: in `paidSplitStore` every split row is
marked paid = true, yet DatabaseStorage.getUserBalances(1) reports a
youOwe total of 500 for user 1, and the total drops to 0 once the paid
rows are removed - so a paid split does contribute to youOwe, contrary to
the claim. -/
theorem C1_paid_flag_counterexample :
    paidSplitStore.expenseSplits.all (fun sp => sp.paid) = true
  ∧ (dbGetUserBalances 1 paidSplitStore).youOwe.total = 500
  ∧ (dbGetUserBalances 1 (removePaidSplits paidSplitStore)).youOwe.total = 0 := by
  decide

/-- Claim C1, amended: MemStorage.getUserBalances aggregates only unpaid
splits (its whole report is unchanged when all paid splits are removed),
but DatabaseStorage.getUserBalances ignores the paid flag entirely (its
whole report is unchanged under any reassignment of paid flags, so a
split with paid = true still counts in youOwe and youAreOwed); in both
implementations changing a split's paid flag never changes totalSpent or
totalByCategory. -/
theorem C1_paid_flag_amended (f : Nat → Bool) (s : Store) (u : Nat) :
    memGetUserBalances u (removePaidSplits s) = memGetUserBalances u s
  ∧ dbGetUserBalances u (setPaidFlags f s) = dbGetUserBalances u s
  ∧ (memGetUserBalances u (setPaidFlags f s)).totalSpent = (memGetUserBalances u s).totalSpent
  ∧ (memGetUserBalances u (setPaidFlags f s)).totalByCategory =
      (memGetUserBalances u s).totalByCategory := by
  refine ⟨memGetUserBalances_removePaid u s, dbGetUserBalances_setPaid u f s, ?_, ?_⟩
  · simp only [memGetUserBalances, getAllExpensesByUser_setPaid]
  · simp only [memGetUserBalances, getAllExpensesByUser_setPaid]

/-- Claim C5, counterexample: on `paidSplitStore` the two implementations
of getUserBalances disagree for user 1 (MemStorage drops the paid split,
DatabaseStorage counts it), so they are not equivalent. -/
theorem C5_equivalence_counterexample :
    memGetUserBalances 1 paidSplitStore ≠ dbGetUserBalances 1 paidSplitStore := by
  decide

/-- Claim C5, amended: the two implementations agree on totalSpent and on
the totalByCategory array (entries and order) for every store state and
user, but not on the youOwe / youAreOwed aggregates. -/
theorem C5_equivalence_amended (s : Store) (u : Nat) :
    (memGetUserBalances u s).totalSpent = (dbGetUserBalances u s).totalSpent
  ∧ (memGetUserBalances u s).totalByCategory = (dbGetUserBalances u s).totalByCategory :=
  ⟨rfl, totalByCategory_eq u s⟩

/-- Claim C10: in both implementations totalSpent equals the sum of the
amounts in totalByCategory, and a user with no expenses gets totalSpent 0
and an empty totalByCategory. -/
theorem C10_report_consistency (s : Store) (u : Nat) :
    (memGetUserBalances u s).totalSpent =
      (((memGetUserBalances u s).totalByCategory).map (fun c => c.amount)).sum
  ∧ (dbGetUserBalances u s).totalSpent =
      (((dbGetUserBalances u s).totalByCategory).map (fun c => c.amount)).sum
  ∧ (getAllExpensesByUser u s = [] →
      (memGetUserBalances u s).totalSpent = 0
    ∧ (memGetUserBalances u s).totalByCategory = []
    ∧ (dbGetUserBalances u s).totalSpent = 0
    ∧ (dbGetUserBalances u s).totalByCategory = []) := by
  refine ⟨?_, ?_, ?_⟩
  · simp only [memGetUserBalances]
    exact (memTotalByCategory_sum _).symm
  · have h : (dbGetUserBalances u s).totalByCategory = (memGetUserBalances u s).totalByCategory :=
      (totalByCategory_eq u s).symm
    rw [h]
    simp only [memGetUserBalances, dbGetUserBalances]
    exact (memTotalByCategory_sum _).symm
  · intro h
    refine ⟨?_, ?_, ?_, ?_⟩ <;>
      simp [memGetUserBalances, dbGetUserBalances, h, memTotalByCategory, dbCategoryPairs]

/-- Claim C10, witness: the report-consistency theorem instantiated on
the empty store for user 1, with the zero-expense hypothesis discharged
by computation. -/
theorem C10_report_consistency_witness :
    (memGetUserBalances 1 emptyStore).totalSpent = 0
  ∧ (memGetUserBalances 1 emptyStore).totalByCategory = []
  ∧ (dbGetUserBalances 1 emptyStore).totalSpent = 0
  ∧ (dbGetUserBalances 1 emptyStore).totalByCategory = [] :=
  (C10_report_consistency emptyStore 1).2.2 (by decide)

/-- Claim C2: the client mutation that the spec's Split Allocator is
supposed to live in submits an empty splits array for a shared group
expense (expense-form.tsx lines 104-110 are a placeholder), so no
base-plus-remainder allocation summing to the total takes place; the
spec's algorithm, transcribed as `allocate`, would have produced
334/333/333 for 1000 cents over three participants. -/
theorem C2_allocator_placeholder :
    clientSubmittedSplits (r"split") (some 1) [⟨2, 500, false⟩] = []
  ∧ ((clientSubmittedSplits (r"split") (some 1) [⟨2, 500, false⟩]).map
      (fun c => c.amount)).sum = 0
  ∧ (allocate 1000 [1, 2, 3]).map (fun p => p.2) = [334, 333, 333]
  ∧ ((allocate 1000 [1, 2, 3]).map (fun p => p.2)).sum = 1000 := by
  decide

/-- Claim C4: the POST /api/expenses handler is not atomic - when the
second split of the request fails to parse, the handler answers with an
error (`none`), yet the created expense and the first split remain
committed, so the post-error state differs from the pre-call state. -/
theorem C4_atomicity_bug :
    (postExpense c4Insert (some c4Raws) emptyStore).1 = none
  ∧ (postExpense c4Insert (some c4Raws) emptyStore).2 ≠ emptyStore
  ∧ ((postExpense c4Insert (some c4Raws) emptyStore).2.expenses.map (fun e => e.id)) = [1]
  ∧ ((postExpense c4Insert (some c4Raws) emptyStore).2.expenseSplits.map
      (fun sp => sp.amount)) = [500] := by
  decide

/-- Claim C3, counterexample: from the empty store (which satisfies the
split-sum invariant) one successful POST with is_split = true, amount
1000 and a single caller-supplied split of 100 produces a store that
violates the invariant - the handler never validates the split sum. -/
theorem C3_invariant_counterexample :
    splitInvariantB emptyStore = true
  ∧ (postExpense c3Insert (some c3Raws) emptyStore).1.isSome = true
  ∧ splitInvariantB ((postExpense c3Insert (some c3Raws) emptyStore).2) = false := by
  decide

/-- Claim C3, amended: the POST handler creates splits only for
is_split = true expenses (an expense created with is_split = false has no
splits referencing it, provided its fresh id was unreferenced before),
and for a successful split creation the recorded split sum is exactly the
caller-supplied sum - the handler does not enforce that it equals the
expense amount. -/
theorem C3_invariant_amended (ins : InsertExpense) (raws : Option (List RawSplit)) (s : Store)
    (h1 : s.expenseSplits.all (fun sp => sp.expense_id != s.nextExpenseId) = true) :
    (ins.is_split = false →
      (postExpense ins raws s).2.expenseSplits.filter
        (fun sp => sp.expense_id == s.nextExpenseId) = [])
  ∧ (∀ l, ins.is_split = true → raws = some l →
      ((postExpense ins raws s).1.isSome = true →
        splitSumOf (postExpense ins raws s).2 s.nextExpenseId =
          (l.map (fun r => r.amount.getD 0)).sum)) := by
  have hbase : s.expenseSplits.filter (fun sp => sp.expense_id == s.nextExpenseId) = [] := by
    rw [List.all_eq_true] at h1
    refine List.filter_eq_nil_iff.mpr (fun sp hsp => ?_)
    have := h1 sp hsp
    simp at this
    simp [this]
  constructor
  · intro hns
    simp only [postExpense, hns, Bool.false_eq_true, if_false]
    exact hbase
  · intro l hs hr
    subst hr
    have hsum0 : splitSumOf s s.nextExpenseId = 0 := by
      unfold splitSumOf
      rw [hbase]
      rfl
    simp only [postExpense, hs, if_true]
    rcases hl : createSplitsLoop (createExpense ins s).1.id l (createExpense ins s).2
      with ⟨b, s2⟩
    cases b with
    | false =>
      intro hcontr
      simp at hcontr
    | true =>
      intro _
      have hkey := createSplitsLoop_splitSum (createExpense ins s).1.id l
        (createExpense ins s).2 (by simp [hl])
      rw [hl] at hkey
      have hid : (createExpense ins s).1.id = s.nextExpenseId := rfl
      rw [hid] at hkey
      have hkey2 : splitSumOf s2 s.nextExpenseId =
          splitSumOf s s.nextExpenseId + (l.map (fun r => r.amount.getD 0)).sum := hkey
      show splitSumOf s2 s.nextExpenseId = (l.map (fun r => r.amount.getD 0)).sum
      rw [hkey2, hsum0]
      omega

/-- Claim C3, witness: the amended theorem applied to an unsplit POST on
the empty store - the created expense gets no splits. -/
theorem C3_invariant_amended_witness :
    (postExpense c3wInsert none emptyStore).2.expenseSplits.filter
      (fun sp => sp.expense_id == emptyStore.nextExpenseId) = [] :=
  (C3_invariant_amended c3wInsert none emptyStore (by decide)).1 rfl

/-- Claim C8: after deleteExpense in either implementation, no split row
referencing the deleted expense id remains and the expense itself is
gone. -/
theorem C8_delete_cascade (s : Store) (eid : Nat) :
    ((memDeleteExpense eid s).expenseSplits.all (fun sp => sp.expense_id != eid)) = true
  ∧ ((memDeleteExpense eid s).expenses.all (fun e => e.id != eid)) = true
  ∧ ((dbDeleteExpense eid s).expenseSplits.all (fun sp => sp.expense_id != eid)) = true
  ∧ ((dbDeleteExpense eid s).expenses.all (fun e => e.id != eid)) = true := by
  refine ⟨?_, ?_, ?_, ?_⟩
  · rw [List.all_eq_true]
    intro sp hsp
    rcases List.mem_filter.mp hsp with ⟨hmem, hcond⟩
    by_contra hne
    have heq : sp.expense_id = eid := by simpa using hne
    have hdel : sp ∈ s.expenseSplits.filter (fun x => x.expense_id == eid) :=
      List.mem_filter.mpr ⟨hmem, by simp [heq]⟩
    have : (s.expenseSplits.filter (fun x => x.expense_id == eid)).any
        (fun d => d.id == sp.id) = true :=
      List.any_eq_true.mpr ⟨sp, hdel, by simp⟩
    rw [this] at hcond
    simp at hcond
  · rw [List.all_eq_true]
    intro e he
    exact (List.mem_filter.mp he).2
  · rw [List.all_eq_true]
    intro sp hsp
    exact (List.mem_filter.mp hsp).2
  · rw [List.all_eq_true]
    intro e he
    exact (List.mem_filter.mp he).2

/-- Claim C9: the DELETE /api/expenses/:id handler answers 404 and leaves
the store untouched when the expense does not exist, answers 403 and
leaves the store untouched when the requester is not the owner, and
deletes exactly when the requester owns the expense. -/
theorem C9_delete_route (s : Store) (eid r : Nat) :
    (s.expenses.find? (fun e => e.id == eid) = none →
      deleteExpenseRoute eid r s = (404, s))
  ∧ (∀ e, s.expenses.find? (fun x => x.id == eid) = some e → e.user_id ≠ r →
      deleteExpenseRoute eid r s = (403, s))
  ∧ (∀ e, s.expenses.find? (fun x => x.id == eid) = some e → e.user_id = r →
      deleteExpenseRoute eid r s = (200, dbDeleteExpense eid s)) := by
  refine ⟨?_, ?_, ?_⟩
  · intro h
    simp [deleteExpenseRoute, h]
  · intro e he hne
    simp [deleteExpenseRoute, he, hne]
  · intro e he heq
    simp [deleteExpenseRoute, he, heq]

/-- Claim C9, witness: on `selfSplitStore` (expense 1 owned by user 1) a
delete request by user 2 is answered 403 with the store unchanged. -/
theorem C9_delete_route_witness :
    deleteExpenseRoute 1 2 selfSplitStore = (403, selfSplitStore) :=
  (C9_delete_route selfSplitStore 1 2).2.1
    ⟨1, r"", 1000, 0, 1, 1, none, true, none⟩ (by decide) (by decide)

/-- Claim C7, counterexample: in `selfSplitStore` user 1 owns expense 1
and carries an unpaid self-split of 500 on it; MemStorage counts that
self-split in user 1's youOwe (total 500 instead of the claimed 0). -/
theorem C7_self_split_counterexample :
    (memGetUserBalances 1 selfSplitStore).youOwe.total = 500
  ∧ (memGetUserBalances 1 (removeSplit 1 selfSplitStore)).youOwe.total = 0 := by
  decide

/-- Claim C7, amended: for a store with unique expense and split ids
containing an unpaid self-split sp (a split whose user owns its expense):
DatabaseStorage's report for that user is unchanged when sp is removed
(sp contributes to neither youOwe nor youAreOwed there); MemStorage
counts sp in that user's youOwe total and count, while its youAreOwed is
unchanged; and for every other user both implementations' reports are
unchanged - the self-split contributes to no other participant's
aggregates. -/
theorem C7_self_split_amended (s : Store) (sp : ExpenseSplit) (e : Expense)
    (hnde : (s.expenses.map (fun x => x.id)).Nodup)
    (hnds : (s.expenseSplits.map (fun x => x.id)).Nodup)
    (hmem : sp ∈ s.expenseSplits) (he : e ∈ s.expenses)
    (hid : e.id = sp.expense_id) (hself : e.user_id = sp.user_id)
    (hunpaid : sp.paid = false) :
    dbGetUserBalances sp.user_id s = dbGetUserBalances sp.user_id (removeSplit sp.id s)
  ∧ (memGetUserBalances sp.user_id s).youOwe.total =
      (memGetUserBalances sp.user_id (removeSplit sp.id s)).youOwe.total + sp.amount
  ∧ (memGetUserBalances sp.user_id s).youOwe.count =
      (memGetUserBalances sp.user_id (removeSplit sp.id s)).youOwe.count + 1
  ∧ (memGetUserBalances sp.user_id s).youAreOwed =
      (memGetUserBalances sp.user_id (removeSplit sp.id s)).youAreOwed
  ∧ ∀ v, v ≠ sp.user_id →
      memGetUserBalances v s = memGetUserBalances v (removeSplit sp.id s)
    ∧ dbGetUserBalances v s = dbGetUserBalances v (removeSplit sp.id s) := by
  have hperm := memUserOwesSplits_perm_removeSelfSplit s sp hnds hmem hunpaid
  refine ⟨?_, ?_, ?_, ?_, ?_⟩
  · refine Eq.symm ?_
    unfold dbGetUserBalances
    rw [getAllExpensesByUser_removeSplit, dbOwingExpenses_removeSplit,
      dbSplitExpenses_removeSelfSplit s sp e hnds hnde hmem he hid hself,
      dbUserOwesSplits_removeSelfSplit s sp e hnds hnde hmem he hid hself,
      dbOthersOweSplits_removeSelfSplit s sp hnds hmem]
  · show ((memUserOwesSplits sp.user_id s).map (fun x => x.amount)).sum =
      ((memUserOwesSplits sp.user_id (removeSplit sp.id s)).map (fun x => x.amount)).sum +
        sp.amount
    rw [List.Perm.sum_eq (hperm.map (fun x => x.amount))]
    simp only [List.map_cons, List.sum_cons]
    omega
  · show (memUserOwesSplits sp.user_id s).length =
      (memUserOwesSplits sp.user_id (removeSplit sp.id s)).length + 1
    rw [hperm.length_eq]
    simp only [List.length_cons]
  · show (⟨((memOthersOweSplits sp.user_id s).map (fun x => x.amount)).sum,
        (memOthersOweSplits sp.user_id s).length,
        (((memOthersOweSplits sp.user_id s).map (memGroupKey s)).dedup).length⟩ : OweDetails) =
      ⟨((memOthersOweSplits sp.user_id (removeSplit sp.id s)).map (fun x => x.amount)).sum,
        (memOthersOweSplits sp.user_id (removeSplit sp.id s)).length,
        (((memOthersOweSplits sp.user_id (removeSplit sp.id s)).map
          (memGroupKey (removeSplit sp.id s))).dedup).length⟩
    rw [memOthersOweSplits_removeSelfSplit s sp hnds hmem, memGroupKey_removeSplit]
  · intro v hv
    have hvne : sp.user_id ≠ v := fun h => hv h.symm
    have hevne : e.user_id ≠ v := by
      rw [hself]
      exact hvne
    constructor
    · refine Eq.symm ?_
      unfold memGetUserBalances
      rw [getAllExpensesByUser_removeSplit,
        memUserOwesSplits_removeSplit_ne s sp v hnds hmem hvne,
        memOthersOweSplits_removeSplit_notOwner s sp e v hnds hnde hmem he hid hevne,
        memGroupKey_removeSplit, memGroupKey_removeSplit]
    · refine Eq.symm ?_
      unfold dbGetUserBalances
      rw [getAllExpensesByUser_removeSplit, dbOwingExpenses_removeSplit,
        dbSplitExpenses_removeSplit_ne s sp v hnds hmem hvne,
        dbUserOwesSplits_removeSplit_ne s sp v hnds hmem hvne,
        dbOthersOweSplits_removeSplit_notOwner s sp e v hnds hnde hmem he hid hevne]

/-- Claim C7, witness: the amended self-split theorem instantiated on
`selfSplitStore`, whose split 1 is an unpaid self-split of user 1 on
expense 1. -/
theorem C7_self_split_amended_witness :
    (memGetUserBalances 1 selfSplitStore).youOwe.total =
      (memGetUserBalances 1 (removeSplit 1 selfSplitStore)).youOwe.total + 500 :=
  (C7_self_split_amended selfSplitStore ⟨1, 1, 1, 500, false⟩
    ⟨1, r"", 1000, 0, 1, 1, none, true, none⟩ (by decide) (by decide) (by decide)
    (by decide) (by decide) (by decide) (by decide)).2.1

/-- Claim C6, counterexample: in `twoGroupStore` user 1 owns expenses in
groups 1 and 2 but only the group-1 expense carries an unpaid split by
another user; the claim says youAreOwed.groups = 1, DatabaseStorage
reports 2. -/
theorem C6_group_counts_counterexample :
    (dbGetUserBalances 1 twoGroupStore).youAreOwed.groups = 2
  ∧ specOwedGroupCount 1 twoGroupStore = 1 := by
  decide

/-- Claim C6, amended: with unique expense ids, DatabaseStorage computes
youAreOwed.groups as the number of distinct truthy group ids among all of
the user's expenses, regardless of splits; and youOwe.groups as the
number of distinct truthy group ids among all expenses not owned by the
user on which the user has any split, paid or unpaid. -/
theorem C6_group_counts_amended (s : Store) (u : Nat)
    (h : (s.expenses.map (fun e => e.id)).Nodup) :
    (dbGetUserBalances u s).youAreOwed.groups =
      truthyGroupCount (s.expenses.filter (fun e => e.user_id == u))
  ∧ (dbGetUserBalances u s).youOwe.groups =
      truthyGroupCount (s.expenses.filter (fun e => e.user_id != u &&
        s.expenseSplits.any (fun sp => sp.user_id == u && sp.expense_id == e.id))) := by
  constructor
  · show truthyGroupCount (dbOwingExpenses u s) = _
    rw [dbOwingExpenses_eq_userExpenses u s h]
    rfl
  · show truthyGroupCount (dbSplitExpenses u s) = _
    rw [dbSplitExpenses_characterization u s]

/-- Claim C6, witness: the amended group-count theorem instantiated on
`twoGroupStore` for user 1. -/
theorem C6_group_counts_amended_witness :
    (dbGetUserBalances 1 twoGroupStore).youAreOwed.groups =
      truthyGroupCount (twoGroupStore.expenses.filter (fun e => e.user_id == 1)) :=
  (C6_group_counts_amended twoGroupStore 1 (by decide)).1

end Splitify
